import Mathlib

/-!
Shallow embedding of the nojquery library (src: `nojquery.js`), a small
DOM-manipulation convenience layer.  Pure computations of the source
(attribute casting, number parsing, argument dispatch) are translated into
executable Lean functions; interactions with host-browser primitives
(`querySelectorAll`, markup parsing, DOM insertion calls, native event
listeners) are modelled either as oracle fields of a `Host` structure or as
traces of host calls, since the library's spec only fixes how the library
invokes those primitives, not their internal semantics.

JavaScript numbers are modelled as `JSNum` (NaN, signed infinity, or an
exact rational).  The rational idealises IEEE-754 doubles: no claim below
depends on rounding, and every concrete input evaluated here is exactly
representable.
-/

/-- Model of a JavaScript number: NaN, an infinity, or a finite value
(idealised as an exact rational). -/
inductive JSNum where
  | nan
  | posInf
  | negInf
  | rat (q : ℚ)
deriving DecidableEq

/-- Model of a JavaScript value as it flows through the library's attribute
and style paths: null, a string, a number, or a boolean. -/
inductive JSVal where
  | vnull
  | vstr (s : String)
  | vnum (n : JSNum)
  | vbool (b : Bool)
deriving DecidableEq

/-- Whitespace skipped by JavaScript's `parseInt` / `parseFloat` before the
numeric prefix. -/
def jsWhitespace (c : Char) : Bool :=
  c = ' ' || c = '\t' || c = '\n' || c = '\r'

/-- Value of a character as a digit in the given radix, or `none` when the
character is not a digit of that radix.  Mirrors the digit alphabet used by
JavaScript's `parseInt` (0-9, a-z, A-Z, cut off at the radix). -/
def digitVal (radix : Nat) (c : Char) : Option Nat :=
  let v : Option Nat :=
    if '0' ≤ c ∧ c ≤ '9' then some (c.toNat - '0'.toNat)
    else if 'a' ≤ c ∧ c ≤ 'z' then some (c.toNat - 'a'.toNat + 10)
    else if 'A' ≤ c ∧ c ≤ 'Z' then some (c.toNat - 'A'.toNat + 10)
    else none
  match v with
  | some n => if n < radix then some n else none
  | none => none

/-- Longest prefix of the character list consisting of digits of the given
radix, returned as digit values. -/
def leadingDigits (radix : Nat) : List Char → List Nat
  | [] => []
  | c :: cs =>
    match digitVal radix c with
    | some d => d :: leadingDigits radix cs
    | none => []

/-- Numeric value of a digit-value list read most-significant first. -/
def digitsVal (radix : Nat) (ds : List Nat) : Nat :=
  ds.foldl (fun a d => a * radix + d) 0

/-- Model of JavaScript `parseInt(s)` with the radix argument omitted:
skip leading whitespace, take an optional sign, honour a `0x`/`0X` hex
prefix, then read the longest digit prefix; `none` models the NaN result
when no digit is found. -/
def parseIntResult (s : String) : Option Int :=
  let cs := s.toList.dropWhile jsWhitespace
  let sign : Int := match cs with
    | '-' :: _ => -1
    | _ => 1
  let cs1 := match cs with
    | '-' :: rest => rest
    | '+' :: rest => rest
    | _ => cs
  let radix : Nat := match cs1 with
    | '0' :: 'x' :: _ => 16
    | '0' :: 'X' :: _ => 16
    | _ => 10
  let cs2 := match cs1 with
    | '0' :: 'x' :: rest => rest
    | '0' :: 'X' :: rest => rest
    | _ => cs1
  let ds := leadingDigits radix cs2
  if ds.isEmpty then none else some (sign * (digitsVal radix ds : Int))

/-- Result of `parseInt(s)` as a JavaScript number (NaN on parse failure). -/
def parseIntJS (s : String) : JSNum :=
  match parseIntResult s with
  | none => JSNum.nan
  | some n => JSNum.rat (n : ℚ)

/-- Model of JavaScript `parseFloat(s)`: skip leading whitespace, take an
optional sign, then the longest decimal-literal prefix (`Infinity`, or
digits with optional fraction and exponent); NaN when no literal starts the
string.  Finite results are exact rationals (see the header note). -/
def parseFloatJS (s : String) : JSNum :=
  let cs := s.toList.dropWhile jsWhitespace
  let neg : Bool := match cs with
    | '-' :: _ => true
    | _ => false
  let cs1 := match cs with
    | '-' :: rest => rest
    | '+' :: rest => rest
    | _ => cs
  if ['I', 'n', 'f', 'i', 'n', 'i', 't', 'y'].isPrefixOf cs1 then
    if neg then JSNum.negInf else JSNum.posInf
  else
    let intDs := leadingDigits 10 cs1
    let cs2 := cs1.drop intDs.length
    let fracDs := match cs2 with
      | '.' :: rest => leadingDigits 10 rest
      | _ => []
    let cs3 := match cs2 with
      | '.' :: rest => rest.drop fracDs.length
      | _ => cs2
    if intDs.isEmpty ∧ fracDs.isEmpty then JSNum.nan
    else
      let expVal : Int := match cs3 with
        | 'e' :: rest | 'E' :: rest =>
          let esign : Int := match rest with
            | '-' :: _ => -1
            | _ => 1
          let rest1 := match rest with
            | '-' :: r => r
            | '+' :: r => r
            | _ => rest
          let eds := leadingDigits 10 rest1
          if eds.isEmpty then 0 else esign * (digitsVal 10 eds : Int)
        | _ => 0
      let sign : ℚ := if neg then -1 else 1
      let mantissa : ℚ :=
        (digitsVal 10 intDs : ℚ) + (digitsVal 10 fracDs : ℚ) / (10 : ℚ) ^ fracDs.length
      JSNum.rat (sign * mantissa * (10 : ℚ) ^ expVal)

/-- Model of JavaScript `str.split(sep)` for a single-character separator,
over character lists: split at every occurrence, keeping empty pieces, and
always returning at least one piece. -/
def splitChar (sep : Char) : List Char → List (List Char)
  | [] => [[]]
  | c :: cs =>
    let rest := splitChar sep cs
    if c = sep then [] :: rest
    else
      match rest with
      | r :: rs => (c :: r) :: rs
      | [] => [[c]]

/-- Embedding of the source's `camelcaseToSnakecase` helper:
`str.replace(/[A-Z]/g, letter => "-" + letter.toLowerCase())`. -/
def camelcaseToSnakecase (s : String) : String :=
  String.mk ((s.toList.map (fun c => if c.isUpper then ['-', c.toLower] else [c])).flatten)

/-- ASCII lower-casing of a string, standing in for JavaScript's
`toLowerCase` (the library only lower-cases type suffixes and attribute
values, for which the ASCII mapping coincides with the host's). -/
def jsToLower (s : String) : String :=
  String.mk (s.toList.map Char.toLower)

/-- Lookup of a key in a JavaScript-object-like association list (first
matching key wins; keys are unique by construction of `setKey`). -/
def lookupKey {α : Type} (k : String) : List (String × α) → Option α
  | [] => none
  | (k', v) :: rest => if k' = k then some v else lookupKey k rest

/-- Model of JavaScript property assignment `obj[k] = v` on an object viewed
as an ordered association list: overwrite in place when the key exists,
append otherwise. -/
def setKey {α : Type} (k : String) (v : α) : List (String × α) → List (String × α)
  | [] => [(k, v)]
  | (k', v') :: rest => if k' = k then (k, v) :: rest else (k', v') :: setKey k v rest

/-- Model of a page element as seen by the library's attribute, class,
text, dataset, geometry and style operations.  `attrs` is the oracle behind
the host's `getAttribute`/`setAttribute`; geometry fields are the host's
layout answers. -/
structure Elem where
  attrs : List (String × String) := []
  classes : List String := []
  innerText : String := ""
  dataset : List (String × String) := []
  styleWidth : JSVal := JSVal.vnull
  styleHeight : JSVal := JSVal.vnull
  offsetWidth : Int := 0
  offsetHeight : Int := 0
  rectTop : ℚ := 0
  rectLeft : ℚ := 0
deriving DecidableEq

/-- Errors a library call can let escape; accessing a member of
`undefined` (e.g. `this[0].innerText` on an empty collection) raises a
TypeError in the host. -/
inductive JSError where
  | typeError
deriving DecidableEq

/-- Top/left pair returned by `offset()` and `position()`. -/
structure Pos where
  top : ℚ
  left : ℚ
deriving DecidableEq

/-- Embedding of the source's `getAttribute(element, attributeName,
convertCamelcaseToSnakecase)` helper: null element yields null; the
descriptor is split on `:` into base name and type; the raw attribute is
read (via the element's attribute oracle) and, when present, cast per the
lower-cased type suffix — `int` via `parseInt`, `float` via `parseFloat`,
`bool` via membership of the lower-cased value in `["", "true", "1"]`, and
any other (or absent) suffix leaves the string unchanged.  The source wraps
the numeric parses in `try`/`catch`, but `parseInt`/`parseFloat` never
throw (they return NaN), so the catch arms are unreachable and the
embedding has no failure branch there. -/
def getAttribute (element : Option Elem) (attributeName : String) (convert : Bool) : JSVal :=
  match element with
  | none => JSVal.vnull
  | some el =>
    let parts := (splitChar ':' attributeName.toList).map String.mk
    let name := parts.headD ""
    let nameToGet := if convert then camelcaseToSnakecase name else name
    match lookupKey nameToGet el.attrs with
    | none => JSVal.vnull
    | some value =>
      let ty := if parts.length > 1 then jsToLower (parts.getD 1 "") else "string"
      if ty = "int" then JSVal.vnum (parseIntJS value)
      else if ty = "float" then JSVal.vnum (parseFloatJS value)
      else if ty = "bool" then JSVal.vbool (["", "true", "1"].contains (jsToLower value))
      else JSVal.vstr value

/-- Embedding of the array branch of `$.attr` (lines 219-236): read each
descriptor from `this[0] ?? null` via `getAttribute` and store it in the
result object under the descriptor string used as the property name.  The
source also attaches the function-valued `removeNulls` helper as a
property of the same object; the embedding keeps the attribute entries
here and models that helper separately as `removeNulls` below. -/
def attr_list (coll : List Elem) (attributes : List String) (convert : Bool) :
    List (String × JSVal) :=
  let element := coll.head?
  attributes.foldl
    (fun result attributeName =>
      setKey attributeName (getAttribute element attributeName convert) result) []

/-- Embedding of the `removeNulls` helper attached to the mapping returned
by the array branch of `$.attr`: delete every key whose value is null. -/
def removeNulls (m : List (String × JSVal)) : List (String × JSVal) :=
  m.filter (fun kv => kv.2 ≠ JSVal.vnull)

/-- Embedding of the single-string getter branch of `$.attr` (one
argument): the cast attribute of the first element, or null when the
collection is empty. -/
def attr_get (coll : List Elem) (name : String) : Except JSError JSVal :=
  match coll with
  | [] => Except.ok JSVal.vnull
  | e :: _ => Except.ok (getAttribute (some e) name false)

/-- Embedding of the `$.hasClass` query: false on an empty collection,
otherwise whether the first element's class list contains the name. -/
def hasClass_op (coll : List Elem) (className : String) : Except JSError Bool :=
  match coll with
  | [] => Except.ok false
  | e :: _ => Except.ok (e.classes.contains className)

/-- Embedding of the `$.width()` getter: 0 on an empty collection,
otherwise the first element's `offsetWidth`. -/
def width_get (coll : List Elem) : Except JSError Int :=
  match coll with
  | [] => Except.ok 0
  | e :: _ => Except.ok e.offsetWidth

/-- Embedding of the `$.height()` getter: 0 on an empty collection,
otherwise the first element's `offsetHeight`. -/
def height_get (coll : List Elem) : Except JSError Int :=
  match coll with
  | [] => Except.ok 0
  | e :: _ => Except.ok e.offsetHeight

/-- Embedding of the `$.outerWidth()` getter. -/
def outerWidth_get (coll : List Elem) : Except JSError Int :=
  match coll with
  | [] => Except.ok 0
  | e :: _ => Except.ok e.offsetWidth

/-- Embedding of the `$.outerHeight()` getter. -/
def outerHeight_get (coll : List Elem) : Except JSError Int :=
  match coll with
  | [] => Except.ok 0
  | e :: _ => Except.ok e.offsetHeight

/-- Embedding of the `$.offset()` getter: `{top: 0, left: 0}` on an empty
collection, otherwise the first element's bounding rectangle shifted by the
window scroll. -/
def offset_get (scrollX scrollY : ℚ) (coll : List Elem) : Except JSError Pos :=
  match coll with
  | [] => Except.ok ⟨0, 0⟩
  | e :: _ => Except.ok ⟨e.rectTop + scrollY, e.rectLeft + scrollX⟩

/-- Embedding of the `$.position()` getter: `{top: 0, left: 0}` on an empty
collection, otherwise the first element's bounding rectangle. -/
def position_get (coll : List Elem) : Except JSError Pos :=
  match coll with
  | [] => Except.ok ⟨0, 0⟩
  | e :: _ => Except.ok ⟨e.rectTop, e.rectLeft⟩

/-- Embedding of the `$.text()` getter: `this[0].innerText` with no length
guard, so an empty collection dereferences `undefined` and raises. -/
def text_get (coll : List Elem) : Except JSError String :=
  match coll with
  | [] => Except.error JSError.typeError
  | e :: _ => Except.ok e.innerText

/-- Embedding of the `$.data(name)` getter: `this[0].dataset[name]` with no
length guard, so an empty collection dereferences `undefined` and raises;
a missing dataset entry reads as `undefined`, modelled as `none`. -/
def data_get (coll : List Elem) (name : String) : Except JSError (Option String) :=
  match coll with
  | [] => Except.error JSError.typeError
  | e :: _ => Except.ok (lookupKey name e.dataset)

/-- Value assigned to every element's `style.width` by the `$.width`
setter when called with a string: the string is re-parsed with `parseInt`;
a successful parse is stringified and suffixed with `"px"`, a failed parse
leaves the variable holding NaN, which is what gets assigned. -/
def width_setter_value (width : String) : JSVal :=
  match parseIntResult width with
  | some n => JSVal.vstr (toString n ++ "px")
  | none => JSVal.vnum JSNum.nan

/-- Embedding of the `$.width(value)` setter for a string argument:
assign `width_setter_value` to every element's style width. -/
def width_set (coll : List Elem) (w : String) : List Elem :=
  coll.map (fun e => { e with styleWidth := width_setter_value w })

/-- Embedding of the `$.height(value)` setter for a string argument (same
numeric-prefix rewriting as `$.width`). -/
def height_set (coll : List Elem) (w : String) : List Elem :=
  coll.map (fun e => { e with styleHeight := width_setter_value w })

/-- Concrete element carrying attribute `count="5"`, used to evaluate the
attribute mapping at a concrete input. -/
def c1Elem : Elem := { attrs := [("count", "5")] }

/-- Concrete element carrying attribute `count="abc"`, used to evaluate the
best-effort numeric cast at a non-numeric input. -/
def c2Elem : Elem := { attrs := [("count", "abc")] }

/-- Per-element event state: `eventHandlers` models the `__eventHandlers`
expando (absent until first touched, then an object mapping event names to
handler arrays), and `nativeListeners` records, in installation order, the
event names for which `addEventListener` has been called by the library.
Handlers are identified by numbers, matching JavaScript's reference
identity for functions. -/
structure EvState where
  eventHandlers : Option (List (String × List Nat))
  nativeListeners : List String
deriving DecidableEq

/-- An element on which the library has never touched event state. -/
def freshElem : EvState := ⟨none, []⟩

/-- Handler array currently stored for an event name (empty when the table
or the entry is absent). -/
def handlersOf (st : EvState) (ev : String) : List Nat :=
  (lookupKey ev (st.eventHandlers.getD [])).getD []

/-- Whether the `__eventHandlers` table already has an entry for the event
name (the condition `_getEventHandlers` tests before installing the native
listener). -/
def keyed (st : EvState) (ev : String) : Bool :=
  (lookupKey ev (st.eventHandlers.getD [])).isSome

/-- Embedding of `_getEventHandlers`: create the `__eventHandlers` object
when absent; when the event's entry is absent, create it empty and install
the single native fan-out listener for that event.  Returns the updated
element state (the source returns the array reference; its subsequent
mutation is modelled by the callers below). -/
def ensureHandlers (st : EvState) (ev : String) : EvState :=
  let table := st.eventHandlers.getD []
  match lookupKey ev table with
  | none =>
    { eventHandlers := some (setKey ev [] table)
      nativeListeners := st.nativeListeners ++ [ev] }
  | some _ => { eventHandlers := some table, nativeListeners := st.nativeListeners }

/-- Embedding of `$.on` for one element: push the handler onto the array
returned by `_getEventHandlers`. -/
def on_op (st : EvState) (ev : String) (h : Nat) : EvState :=
  let st1 := ensureHandlers st ev
  { st1 with
    eventHandlers := some (setKey ev (handlersOf st1 ev ++ [h]) (st1.eventHandlers.getD [])) }

/-- Embedding of `$.off` with no handler argument for one element:
`handlers.splice(0, handlers.length)` empties the array in place. -/
def off_all (st : EvState) (ev : String) : EvState :=
  let st1 := ensureHandlers st ev
  { st1 with eventHandlers := some (setKey ev [] (st1.eventHandlers.getD [])) }

/-- Embedding of the `$.off` removal loop (index walk with `splice` on
match): removes every occurrence of the handler, preserving the relative
order of the rest. -/
def removeAllOcc : List Nat → Nat → List Nat
  | [], _ => []
  | x :: xs, h => if x = h then removeAllOcc xs h else x :: removeAllOcc xs h

/-- Embedding of `$.off` with a handler argument for one element. -/
def off_one (st : EvState) (ev : String) (h : Nat) : EvState :=
  let st1 := ensureHandlers st ev
  { st1 with
    eventHandlers := some (setKey ev (removeAllOcc (handlersOf st1 ev) h) (st1.eventHandlers.getD [])) }

/-- State reached from a fresh element by a sequence of `on` registrations
given as (event name, handler) pairs. -/
def onFold (calls : List (String × Nat)) : EvState :=
  calls.foldl (fun s c => on_op s c.1 c.2) freshElem

/-- Number of occurrences of a string in a list. -/
def countOcc (x : String) (l : List String) : Nat :=
  (l.filter (fun e => e = x)).length

/-- Handlers invoked, in order, when the host dispatches one occurrence of
the event: the host calls every installed native listener for that event in
installation order, and each of the library's fan-out listeners iterates
the current handler array for the event. -/
def dispatchCalls (st : EvState) (ev : String) : List Nat :=
  ((st.nativeListeners.filter (fun e => e = ev)).map (fun _ => handlersOf st ev)).flatten

/-- Argument shapes accepted by the insertion operations `$.append`,
`$.prepend`, `$.after`, `$.before`: an HTML element (identified by a
number), an array of arguments, a markup string, or anything else (which
matches no branch of the source's dispatch). -/
inductive InsArg where
  | htmlElement (e : Nat)
  | arr (elements : List InsArg)
  | markup (s : String)
  | other

/-- Host DOM-mutation primitives the insertion operations call; the
operations are modelled as the trace of such calls they emit, since the
mutations themselves are host semantics. -/
inductive DomCall where
  | appendChild (parent child : Nat)
  | insertBeforeFirstChild (parent child : Nat)
  | insertAdjacentElement (target : Nat) (position : String) (child : Nat)
  | appendInnerHTML (target : Nat) (s : String)
  | prependInnerHTML (target : Nat) (s : String)
  | insertAdjacentHTML (target : Nat) (position : String) (s : String)
deriving DecidableEq

mutual
/-- Embedding of `$.append`: an element argument is appended to the first
collection element's children when the collection is nonempty; an array
recurses per member through `$.append` itself; a string is appended to
every collection element's `innerHTML`. -/
def append_op (coll : List Nat) : InsArg → List DomCall
  | InsArg.htmlElement e =>
    match coll with
    | [] => []
    | p :: _ => [DomCall.appendChild p e]
  | InsArg.arr xs => append_opList coll xs
  | InsArg.markup s => coll.map (fun x => DomCall.appendInnerHTML x s)
  | InsArg.other => []
/-- Trace of `element.forEach(x => this.append(x))` over an array argument. -/
def append_opList (coll : List Nat) : List InsArg → List DomCall
  | [] => []
  | x :: xs => append_op coll x ++ append_opList coll xs
end

mutual
/-- Embedding of `$.prepend`: an element argument is inserted before the
first collection element's first child when the collection is nonempty; an
array recurses per member; a string is prepended to every collection
element's `innerHTML`. -/
def prepend_op (coll : List Nat) : InsArg → List DomCall
  | InsArg.htmlElement e =>
    match coll with
    | [] => []
    | p :: _ => [DomCall.insertBeforeFirstChild p e]
  | InsArg.arr xs => prepend_opList coll xs
  | InsArg.markup s => coll.map (fun x => DomCall.prependInnerHTML x s)
  | InsArg.other => []
/-- Trace of `element.forEach(x => this.prepend(x))` over an array argument. -/
def prepend_opList (coll : List Nat) : List InsArg → List DomCall
  | [] => []
  | x :: xs => prepend_op coll x ++ prepend_opList coll xs
end

mutual
/-- Embedding of `$.after`: an element argument is inserted via
`insertAdjacentElement("afterend", e)` on the first collection element when
the collection is nonempty; an array recurses per member; a string goes
through `insertAdjacentHTML("afterend", s)` on every collection element. -/
def after_op (coll : List Nat) : InsArg → List DomCall
  | InsArg.htmlElement e =>
    match coll with
    | [] => []
    | p :: _ => [DomCall.insertAdjacentElement p "afterend" e]
  | InsArg.arr xs => after_opList coll xs
  | InsArg.markup s => coll.map (fun x => DomCall.insertAdjacentHTML x "afterend" s)
  | InsArg.other => []
/-- Trace of `element.forEach(x => this.after(x))` over an array argument. -/
def after_opList (coll : List Nat) : List InsArg → List DomCall
  | [] => []
  | x :: xs => after_op coll x ++ after_opList coll xs
end

mutual
/-- Embedding of `$.before`: like `$.after` with position
`"beforebegin"`. -/
def before_op (coll : List Nat) : InsArg → List DomCall
  | InsArg.htmlElement e =>
    match coll with
    | [] => []
    | p :: _ => [DomCall.insertAdjacentElement p "beforebegin" e]
  | InsArg.arr xs => before_opList coll xs
  | InsArg.markup s => coll.map (fun x => DomCall.insertAdjacentHTML x "beforebegin" s)
  | InsArg.other => []
/-- Trace of `element.forEach(x => this.before(x))` over an array argument. -/
def before_opList (coll : List Nat) : List InsArg → List DomCall
  | [] => []
  | x :: xs => before_op coll x ++ before_opList coll xs
end

/-- Node produced when the builder's scratch `div` parses a string as
markup: a top-level text node or a top-level element (by identity). -/
inductive DomNode where
  | textNode (s : String)
  | elemNode (e : Nat)
deriving DecidableEq

/-- Host-browser oracle for the builder: how the scratch container parses a
string into top-level nodes, what `querySelectorAll` returns inside a given
element (in the selector engine's document order), and the identity of the
root document. -/
structure Host where
  parseMarkup : String → List DomNode
  querySelectorAll : Nat → String → List Nat
  document : Nat

/-- Element children of a parsed node list, as exposed by the scratch
container's `children` collection (text nodes are not in `children`). -/
def elementChildren (nodes : List DomNode) : List Nat :=
  nodes.filterMap (fun n =>
    match n with
    | DomNode.elemNode e => some e
    | DomNode.textNode _ => none)

/-- Argument shapes the builder `$(...)` classifies: strings, element-like
values, arrays, functions (handlers identified by numbers), and the
unrecognized shapes a caller could pass (a number, null, a boolean, a plain
object), which match none of the source's type tests. -/
inductive JSArg where
  | str (s : String)
  | elemLike (e : Nat)
  | arr (elements : List JSArg)
  | func (f : Nat)
  | numArg
  | nullArg
  | boolArg
  | objArg

mutual
/-- Embedding of the per-argument classification in the builder's loop
(source lines 36-57).  A string is parsed as markup first; when the scratch
container gains element children they are adopted, otherwise the string is
run as a selector over every context element and the matches concatenated.
An element-like value is pushed as-is.  An array is resolved by mapping
each member through a plain `$(member)` call, whose context defaults to the
document (the inner call is unbound).  A function is registered as a
`DOMContentLoaded` handler (second component of the result) and contributes
no element.  Any other shape matches no branch.  Result: (elements pushed,
ready handlers registered). -/
def buildArg (h : Host) (context : List Nat) : JSArg → List Nat × List Nat
  | JSArg.str s =>
    let children := elementChildren (h.parseMarkup s)
    if children.length > 0 then (children, [])
    else ((context.map (fun ctx => h.querySelectorAll ctx s)).flatten, [])
  | JSArg.elemLike e => ([e], [])
  | JSArg.arr xs => buildArgList h [h.document] xs
  | JSArg.func f => ([], [f])
  | JSArg.numArg => ([], [])
  | JSArg.nullArg => ([], [])
  | JSArg.boolArg => ([], [])
  | JSArg.objArg => ([], [])
/-- Concatenation of the builder's per-argument results over an argument
list, in order. -/
def buildArgList (h : Host) (context : List Nat) : List JSArg → List Nat × List Nat
  | [] => ([], [])
  | a :: rest =>
    let r := buildArg h context a
    let rr := buildArgList h context rest
    (r.1 ++ rr.1, r.2 ++ rr.2)
end

/-- Embedding of the builder `$(...elements)` with an explicit context (the
document for unbound calls, the receiving collection for scoped `_$`
calls): an empty argument list is replaced by the context's own elements,
then each argument is resolved per `buildArg` and the results concatenated
in argument order. -/
def build (h : Host) (context : List Nat) (elements : List JSArg) : List Nat × List Nat :=
  match elements with
  | [] => buildArgList h context (context.map JSArg.elemLike)
  | _ => buildArgList h context elements

/-- Concrete host used to evaluate the builder at concrete inputs: the
string `"hello <b>x</b>"` parses into a text node and element 5, any other
string parses into a single text node (so it is treated as a selector);
selector `".btn"` matches elements 10 and 11 inside element 1 and element
12 inside element 2. -/
def demoHost : Host :=
  { parseMarkup := fun s =>
      if s = "hello <b>x</b>" then [DomNode.textNode "hello ", DomNode.elemNode 5]
      else [DomNode.textNode s]
    querySelectorAll := fun ctx s =>
      if ctx = 1 ∧ s = ".btn" then [10, 11]
      else if ctx = 2 ∧ s = ".btn" then [12]
      else []
    document := 0 }

theorem lookupKey_setKey {α : Type} (l : List (String × α)) (k k' : String) (v : α) :
    lookupKey k' (setKey k v l) = if k = k' then some v else lookupKey k' l := by
  induction l with
  | nil => by_cases h : k = k' <;> simp [setKey, lookupKey, h]
  | cons hd tl ih =>
    obtain ⟨k0, v0⟩ := hd
    by_cases hk : k0 = k
    · subst hk
      by_cases hk' : k0 = k' <;> simp [setKey, lookupKey, hk']
    · by_cases hk' : k0 = k'
      · subst hk'
        have hkk : ¬ k = k0 := fun h => hk h.symm
        simp [setKey, lookupKey, hk, hkk]
      · simp [setKey, lookupKey, hk, hk', ih]

theorem lookupKey_foldl_setKey {α : Type} (g : String → α) (attrs : List String)
    (init : List (String × α)) (d : String) :
    lookupKey d (attrs.foldl (fun r k => setKey k (g k) r) init) =
      if d ∈ attrs then some (g d) else lookupKey d init := by
  induction attrs generalizing init with
  | nil => simp
  | cons a rest ih =>
    rw [List.foldl_cons, ih, lookupKey_setKey]
    by_cases hr : d ∈ rest
    · simp [hr]
    · by_cases ha : a = d
      · subst ha
        simp [hr]
      · have had : ¬ d = a := fun h => ha h.symm
        simp [hr, ha, had]

/-- C1 (amended): the mapping returned by the array branch of `attr` is
keyed by each attribute descriptor exactly as written (the `:type` suffix
is NOT stripped — the stripping inside `getAttribute` is local to it), and
each such key is bound to the cast value of that attribute read from the
first element, which is null when the attribute is absent or the collection
is empty; descriptors not in the requested list are not keys. -/
theorem attr_list_keys_full_descriptor (coll : List Elem) (attributes : List String)
    (convert : Bool) :
    (∀ d, d ∈ attributes →
      lookupKey d (attr_list coll attributes convert) =
        some (getAttribute coll.head? d convert)) ∧
    (∀ d, d ∉ attributes → lookupKey d (attr_list coll attributes convert) = none) := by
  constructor
  · intro d hd
    unfold attr_list
    rw [lookupKey_foldl_setKey]
    simp [hd]
  · intro d hd
    unfold attr_list
    rw [lookupKey_foldl_setKey]
    simp [hd, lookupKey]

/-- Witness: evaluating the amended C1 statement at a one-element
collection whose element carries `count="5"` and descriptor `"count:int"`. -/
theorem attr_list_keys_full_descriptor_witness :
    lookupKey "count:int" (attr_list [c1Elem] ["count:int"] false) =
      some (JSVal.vnum (JSNum.rat 5)) := by
  have h := (attr_list_keys_full_descriptor [c1Elem] ["count:int"] false).1
    "count:int" (by simp)
  rw [h]
  decide

/-- C1 counterexample: for the collection `[c1Elem]` (attribute
`count="5"`) and descriptor list `["count:int"]`, the returned mapping has
no key `"count"` — the claim's promised stripped key — while the full
descriptor `"count:int"` is the actual key. -/
theorem attr_list_no_stripped_key_counterexample :
    lookupKey "count" (attr_list [c1Elem] ["count:int"] false) = none ∧
    lookupKey "count:int" (attr_list [c1Elem] ["count:int"] false) =
      some (JSVal.vnum (JSNum.rat 5)) := by
  decide

/-- C2: reading descriptor `count:int` over physical value `"abc"` yields
the NaN number, not the raw string `"abc"`: `parseInt` never throws (it
returns NaN), so the source's `try`/`catch` — whose empty catch arm was
meant to keep the raw string on parse failure — never fires and the NaN is
returned. -/
theorem getAttribute_int_cast_nonnumeric_is_nan :
    getAttribute (some c2Elem) "count:int" false = JSVal.vnum JSNum.nan ∧
    getAttribute (some c2Elem) "count:int" false ≠ JSVal.vstr "abc" := by
  decide

/-- C3 counterexample: `text()` and `data(name)` with no value argument
dereference `this[0]` with no length guard, so on an empty collection both
raise a TypeError instead of degrading. -/
theorem empty_collection_text_data_raise :
    text_get ([] : List Elem) = Except.error JSError.typeError ∧
    data_get ([] : List Elem) "x" = Except.error JSError.typeError :=
  ⟨rfl, rfl⟩

/-- C3 (amended): on an empty collection the getters `width`, `height`,
`outerWidth`, `outerHeight`, `offset`, `position`, `hasClass` and
single-argument `attr` return their degraded values (0, `{top:0,left:0}`,
false, null) without raising, but `text()` and `data(name)` raise a
TypeError because they read `this[0]` unconditionally. -/
theorem empty_collection_getters_degrade (className attrName dataName : String)
    (sx sy : ℚ) :
    width_get ([] : List Elem) = Except.ok 0 ∧
    height_get ([] : List Elem) = Except.ok 0 ∧
    outerWidth_get ([] : List Elem) = Except.ok 0 ∧
    outerHeight_get ([] : List Elem) = Except.ok 0 ∧
    offset_get sx sy ([] : List Elem) = Except.ok ⟨0, 0⟩ ∧
    position_get ([] : List Elem) = Except.ok ⟨0, 0⟩ ∧
    hasClass_op ([] : List Elem) className = Except.ok false ∧
    attr_get ([] : List Elem) attrName = Except.ok JSVal.vnull ∧
    text_get ([] : List Elem) = Except.error JSError.typeError ∧
    data_get ([] : List Elem) dataName = Except.error JSError.typeError :=
  ⟨rfl, rfl, rfl, rfl, rfl, rfl, rfl, rfl, rfl, rfl⟩

/-- C4 counterexample: the width setter does not pass the unit-bearing
string `"50%"` through unchanged; `parseInt("50%")` succeeds with 50, so
the assigned style value is `"50px"`. -/
theorem width_unit_string_not_preserved :
    width_setter_value "50%" = JSVal.vstr "50px" ∧
    width_setter_value "50%" ≠ JSVal.vstr "50%" := by
  decide

/-- C4 (amended): for a string argument, the width/height setters assign to
every element the value obtained by re-parsing the string with `parseInt`:
when the parse succeeds (as it does for `"50"`, but also for unit-bearing
strings `"50%"` and `"50em"`, whose parse stops at the unit and yields 50)
the assigned value is the parsed integer suffixed with `"px"`; when the
parse fails (e.g. `"auto"`) the assigned value is the NaN number. -/
theorem width_height_setter_rewrites_numeric_prefix (coll : List Elem) (w : String) :
    width_set coll w = coll.map (fun e =>
      { e with styleWidth :=
          match parseIntResult w with
          | some n => JSVal.vstr (toString n ++ "px")
          | none => JSVal.vnum JSNum.nan }) ∧
    height_set coll w = coll.map (fun e =>
      { e with styleHeight :=
          match parseIntResult w with
          | some n => JSVal.vstr (toString n ++ "px")
          | none => JSVal.vnum JSNum.nan }) ∧
    parseIntResult "50" = some 50 ∧
    parseIntResult "50%" = some 50 ∧
    parseIntResult "50em" = some 50 ∧
    parseIntResult "auto" = none := by
  refine ⟨rfl, rfl, by decide, by decide, by decide, by decide⟩

theorem append_opList_eq_flatten (coll : List Nat) (xs : List InsArg) :
    append_opList coll xs = (xs.map (append_op coll)).flatten := by
  induction xs with
  | nil => simp [append_opList]
  | cons x xs ih => simp [append_opList, ih]

theorem prepend_opList_eq_flatten (coll : List Nat) (xs : List InsArg) :
    prepend_opList coll xs = (xs.map (prepend_op coll)).flatten := by
  induction xs with
  | nil => simp [prepend_opList]
  | cons x xs ih => simp [prepend_opList, ih]

theorem after_opList_eq_flatten (coll : List Nat) (xs : List InsArg) :
    after_opList coll xs = (xs.map (after_op coll)).flatten := by
  induction xs with
  | nil => simp [after_opList]
  | cons x xs ih => simp [after_opList, ih]

theorem before_opList_eq_flatten (coll : List Nat) (xs : List InsArg) :
    before_opList coll xs = (xs.map (before_op coll)).flatten := by
  induction xs with
  | nil => simp [before_opList]
  | cons x xs ih => simp [before_opList, ih]

/-- C5: for each of the four insertion operations, a single page-element
argument produces exactly one host insertion call at the operation's fixed
position, targeting the collection's first element, and no call at all when
the collection is empty; an array argument produces the concatenation, in
member order, of what each member produces through the same operation; and
a markup-string argument produces the corresponding markup-insertion call
once for every element of the collection, in collection order. -/
theorem insertion_ops_dispatch (coll : List Nat) (e : Nat) (xs : List InsArg) (s : String) :
    (coll = [] →
      append_op coll (InsArg.htmlElement e) = [] ∧
      prepend_op coll (InsArg.htmlElement e) = [] ∧
      after_op coll (InsArg.htmlElement e) = [] ∧
      before_op coll (InsArg.htmlElement e) = []) ∧
    (∀ p rest, coll = p :: rest →
      append_op coll (InsArg.htmlElement e) = [DomCall.appendChild p e] ∧
      prepend_op coll (InsArg.htmlElement e) = [DomCall.insertBeforeFirstChild p e] ∧
      after_op coll (InsArg.htmlElement e) = [DomCall.insertAdjacentElement p "afterend" e] ∧
      before_op coll (InsArg.htmlElement e) = [DomCall.insertAdjacentElement p "beforebegin" e]) ∧
    (append_op coll (InsArg.arr xs) = (xs.map (append_op coll)).flatten ∧
      prepend_op coll (InsArg.arr xs) = (xs.map (prepend_op coll)).flatten ∧
      after_op coll (InsArg.arr xs) = (xs.map (after_op coll)).flatten ∧
      before_op coll (InsArg.arr xs) = (xs.map (before_op coll)).flatten) ∧
    (append_op coll (InsArg.markup s) = coll.map (fun x => DomCall.appendInnerHTML x s) ∧
      prepend_op coll (InsArg.markup s) = coll.map (fun x => DomCall.prependInnerHTML x s) ∧
      after_op coll (InsArg.markup s) =
        coll.map (fun x => DomCall.insertAdjacentHTML x "afterend" s) ∧
      before_op coll (InsArg.markup s) =
        coll.map (fun x => DomCall.insertAdjacentHTML x "beforebegin" s)) := by
  refine ⟨?_, ?_, ?_, ?_⟩
  · rintro rfl
    refine ⟨?_, ?_, ?_, ?_⟩ <;> simp [append_op, prepend_op, after_op, before_op]
  · rintro p rest rfl
    refine ⟨?_, ?_, ?_, ?_⟩ <;> simp [append_op, prepend_op, after_op, before_op]
  · exact ⟨by simp [append_op, append_opList_eq_flatten],
      by simp [prepend_op, prepend_opList_eq_flatten],
      by simp [after_op, after_opList_eq_flatten],
      by simp [before_op, before_opList_eq_flatten]⟩
  · refine ⟨?_, ?_, ?_, ?_⟩ <;> simp [append_op, prepend_op, after_op, before_op]

/-- Witness: evaluating the C5 dispatch at a two-element collection and an
element argument discharges the nonempty-collection hypothesis. -/
theorem insertion_ops_dispatch_witness :
    append_op [1, 2] (InsArg.htmlElement 7) = [DomCall.appendChild 1 7] :=
  (((insertion_ops_dispatch [1, 2] 7 [] "m").2.1) 1 [2] rfl).1

theorem lookup_of_not_keyed (st : EvState) (ev : String) (hk : keyed st ev = false) :
    lookupKey ev (st.eventHandlers.getD []) = none := by
  unfold keyed at hk
  exact Option.not_isSome_iff_eq_none.mp (by simp [hk])

theorem ensureHandlers_eq (st : EvState) (ev : String) :
    ensureHandlers st ev =
      if keyed st ev then
        { eventHandlers := some (st.eventHandlers.getD [])
          nativeListeners := st.nativeListeners }
      else
        { eventHandlers := some (setKey ev [] (st.eventHandlers.getD []))
          nativeListeners := st.nativeListeners ++ [ev] } := by
  by_cases hk : keyed st ev
  · rcases Option.isSome_iff_exists.mp (by unfold keyed at hk; exact hk) with ⟨l, hl⟩
    rw [if_pos hk]
    simp only [ensureHandlers, hl]
  · have hk0 : keyed st ev = false := by simpa using hk
    have hl := lookup_of_not_keyed st ev hk0
    rw [if_neg hk]
    simp only [ensureHandlers, hl]

theorem handlersOf_ensure (st : EvState) (ev ev' : String) :
    handlersOf (ensureHandlers st ev) ev' = handlersOf st ev' := by
  rw [ensureHandlers_eq]
  by_cases hk : keyed st ev
  · simp [hk, handlersOf]
  · have hk0 : keyed st ev = false := by simpa using hk
    have hl := lookup_of_not_keyed st ev hk0
    simp only [if_neg hk, handlersOf, Option.getD_some, lookupKey_setKey]
    by_cases hev : ev = ev'
    · subst hev
      simp [hl]
    · simp [hev]

theorem keyed_ensure (st : EvState) (ev ev' : String) :
    keyed (ensureHandlers st ev) ev' = true ↔ (ev = ev' ∨ keyed st ev' = true) := by
  rw [ensureHandlers_eq]
  by_cases hk : keyed st ev
  · rw [if_pos hk]
    constructor
    · intro hs
      exact Or.inr hs
    · rintro (hev | hs)
      · subst hev
        exact hk
      · exact hs
  · rw [if_neg hk]
    show (lookupKey ev' (setKey ev [] (st.eventHandlers.getD []))).isSome = true ↔ _
    rw [lookupKey_setKey]
    by_cases hev : ev = ev'
    · simp [hev]
    · simp [hev, keyed]

theorem handlersOf_on_op (st : EvState) (ev : String) (h : Nat) (ev' : String) :
    handlersOf (on_op st ev h) ev' =
      if ev = ev' then handlersOf st ev' ++ [h] else handlersOf st ev' := by
  show (lookupKey ev' (setKey ev (handlersOf (ensureHandlers st ev) ev ++ [h])
      ((ensureHandlers st ev).eventHandlers.getD []))).getD [] = _
  rw [lookupKey_setKey]
  by_cases hev : ev = ev'
  · subst hev
    rw [if_pos rfl, if_pos rfl]
    simp [handlersOf_ensure]
  · rw [if_neg hev, if_neg hev]
    exact handlersOf_ensure st ev ev'

theorem native_on_op (st : EvState) (ev : String) (h : Nat) :
    (on_op st ev h).nativeListeners =
      if keyed st ev then st.nativeListeners else st.nativeListeners ++ [ev] := by
  show (ensureHandlers st ev).nativeListeners = _
  rw [ensureHandlers_eq]
  by_cases hk : keyed st ev <;> simp [hk]

theorem keyed_on_op (st : EvState) (ev : String) (h : Nat) (ev' : String) :
    keyed (on_op st ev h) ev' = true ↔ (ev = ev' ∨ keyed st ev' = true) := by
  show (lookupKey ev' (setKey ev (handlersOf (ensureHandlers st ev) ev ++ [h])
      ((ensureHandlers st ev).eventHandlers.getD []))).isSome = true ↔ _
  rw [lookupKey_setKey]
  by_cases hev : ev = ev'
  · simp [hev]
  · rw [if_neg hev]
    have hiff := keyed_ensure st ev ev'
    unfold keyed at hiff
    simpa [hev] using hiff

theorem keyed_on_op_other (st : EvState) (e1 : String) (h1 : Nat) (ev : String)
    (hne : ¬ e1 = ev) : keyed (on_op st e1 h1) ev = keyed st ev := by
  by_cases hev : keyed st ev
  · rw [(keyed_on_op st e1 h1 ev).mpr (Or.inr hev), hev]
  · have hfalse : ¬ keyed (on_op st e1 h1) ev = true := by
      intro hc
      rcases (keyed_on_op st e1 h1 ev).mp hc with h | h
      · exact hne h
      · exact hev h
    have h1' : keyed (on_op st e1 h1) ev = false := by simpa using hfalse
    have h2' : keyed st ev = false := by simpa using hev
    rw [h1', h2']

theorem keyed_on_op_keyed (st : EvState) (e1 : String) (h1 : Nat) (ev : String)
    (hk : keyed st e1 = true) : keyed (on_op st e1 h1) ev = keyed st ev := by
  by_cases hne : e1 = ev
  · subst hne
    rw [(keyed_on_op st e1 h1 e1).mpr (Or.inl rfl), hk]
  · exact keyed_on_op_other st e1 h1 ev hne

theorem countOcc_append (x : String) (l1 l2 : List String) :
    countOcc x (l1 ++ l2) = countOcc x l1 + countOcc x l2 := by
  simp [countOcc, List.filter_append]

theorem countOcc_cons (ev x : String) (t : List String) :
    countOcc ev (x :: t) = if x = ev then countOcc ev t + 1 else countOcc ev t := by
  by_cases hx : x = ev <;> simp [countOcc, List.filter_cons, hx]

theorem countOcc_singleton (x y : String) : countOcc x [y] = if y = x then 1 else 0 := by
  by_cases h : y = x <;> simp [countOcc, h]

theorem countOcc_inv_on_op (st : EvState) (e1 : String) (h1 : Nat)
    (hinv : ∀ ev, countOcc ev st.nativeListeners = if keyed st ev then 1 else 0) :
    ∀ ev, countOcc ev (on_op st e1 h1).nativeListeners =
      if keyed (on_op st e1 h1) ev then 1 else 0 := by
  intro ev
  rw [native_on_op]
  by_cases hk : keyed st e1
  · rw [if_pos hk, keyed_on_op_keyed st e1 h1 ev hk]
    exact hinv ev
  · have hk0 : keyed st e1 = false := by simpa using hk
    rw [if_neg hk, countOcc_append, countOcc_singleton]
    by_cases hev : e1 = ev
    · subst hev
      rw [(keyed_on_op st e1 h1 e1).mpr (Or.inl rfl)]
      simp [hinv e1, hk0]
    · rw [if_neg hev, keyed_on_op_other st e1 h1 ev hev, hinv ev, Nat.add_zero]

theorem countOcc_inv_foldl (calls : List (String × Nat)) (st : EvState)
    (hinv : ∀ ev, countOcc ev st.nativeListeners = if keyed st ev then 1 else 0) :
    ∀ ev, countOcc ev ((calls.foldl (fun s c => on_op s c.1 c.2) st).nativeListeners) =
      if keyed (calls.foldl (fun s c => on_op s c.1 c.2) st) ev then 1 else 0 := by
  induction calls generalizing st with
  | nil => exact hinv
  | cons c rest ih =>
    exact ih (on_op st c.1 c.2) (countOcc_inv_on_op st c.1 c.2 hinv)

theorem keyed_foldl (calls : List (String × Nat)) (st : EvState) (ev : String) :
    keyed (calls.foldl (fun s c => on_op s c.1 c.2) st) ev = true ↔
      (keyed st ev = true ∨ ev ∈ calls.map Prod.fst) := by
  induction calls generalizing st with
  | nil => simp
  | cons c rest ih =>
    rw [List.foldl_cons, ih (on_op st c.1 c.2)]
    simp only [List.map_cons, List.mem_cons]
    constructor
    · rintro (h1 | h2)
      · rcases (keyed_on_op st c.1 c.2 ev).mp h1 with he | hkk
        · exact Or.inr (Or.inl he.symm)
        · exact Or.inl hkk
      · exact Or.inr (Or.inr h2)
    · rintro (hkk | he | hm)
      · exact Or.inl ((keyed_on_op st c.1 c.2 ev).mpr (Or.inr hkk))
      · exact Or.inl ((keyed_on_op st c.1 c.2 ev).mpr (Or.inl he.symm))
      · exact Or.inr hm

theorem handlersOf_foldl (calls : List (String × Nat)) (st : EvState) (ev : String) :
    handlersOf (calls.foldl (fun s c => on_op s c.1 c.2) st) ev =
      handlersOf st ev ++ (calls.filter (fun c => c.1 = ev)).map Prod.snd := by
  induction calls generalizing st with
  | nil => simp
  | cons c rest ih =>
    rw [List.foldl_cons, ih (on_op st c.1 c.2), handlersOf_on_op]
    by_cases he : c.1 = ev
    · rw [if_pos he]
      simp [List.filter_cons, he, List.append_assoc]
    · rw [if_neg he]
      simp [List.filter_cons, he]

theorem dispatch_aux (hs : List Nat) (l : List String) (ev : String) :
    ((l.filter (fun e => e = ev)).map (fun _ => hs)).flatten =
      (List.replicate (countOcc ev l) hs).flatten := by
  induction l with
  | nil => rfl
  | cons x t ih =>
    rw [countOcc_cons]
    by_cases hx : x = ev
    · simp [List.filter_cons, hx, List.replicate_succ, ih, countOcc]
    · simp [List.filter_cons, hx, ih, countOcc]

theorem dispatchCalls_eq_replicate (st : EvState) (ev : String) :
    dispatchCalls st ev =
      (List.replicate (countOcc ev st.nativeListeners) (handlersOf st ev)).flatten := by
  unfold dispatchCalls
  exact dispatch_aux (handlersOf st ev) st.nativeListeners ev

/-- C6: starting from an element with no event state, an arbitrary sequence
of `on(eventName, handler)` registrations leaves exactly one native
listener installed for every event name that was registered at least once
(and none for any other name), and dispatching an occurrence of an event
invokes exactly the handlers registered for it, in registration order. -/
theorem on_single_native_listener_ordered (calls : List (String × Nat)) (ev : String) :
    countOcc ev (onFold calls).nativeListeners =
      (if ev ∈ calls.map Prod.fst then 1 else 0) ∧
    dispatchCalls (onFold calls) ev = (calls.filter (fun c => c.1 = ev)).map Prod.snd := by
  have hbase : ∀ e, countOcc e freshElem.nativeListeners = if keyed freshElem e then 1 else 0 := by
    intro e
    simp [freshElem, countOcc, keyed, lookupKey]
  have hinv := countOcc_inv_foldl calls freshElem hbase ev
  have hkey := keyed_foldl calls freshElem ev
  have hh := handlersOf_foldl calls freshElem ev
  have hkeyfalse : ¬ ev ∈ calls.map Prod.fst →
      keyed (calls.foldl (fun s c => on_op s c.1 c.2) freshElem) ev = false := by
    intro hm
    cases hb : keyed (calls.foldl (fun s c => on_op s c.1 c.2) freshElem) ev
    · rfl
    · rcases hkey.mp hb with h1 | h2
      · exact absurd h1 (by simp [freshElem, keyed, lookupKey])
      · exact absurd h2 hm
  constructor
  · unfold onFold
    rw [hinv]
    by_cases hm : ev ∈ calls.map Prod.fst
    · rw [if_pos hm, hkey.mpr (Or.inr hm)]
      simp
    · rw [if_neg hm, hkeyfalse hm]
      simp
  · unfold onFold
    rw [dispatchCalls_eq_replicate, hinv, hh]
    rw [show handlersOf freshElem ev = [] from rfl]
    by_cases hm : ev ∈ calls.map Prod.fst
    · rw [hkey.mpr (Or.inr hm)]
      simp
    · rw [hkeyfalse hm]
      have hfil : calls.filter (fun c => c.1 = ev) = [] := by
        rw [List.filter_eq_nil_iff]
        intro c hc
        simp only [decide_eq_true_eq]
        intro hceq
        exact hm (List.mem_map.mpr ⟨c, hc, hceq⟩)
      rw [hfil]
      simp

/-- C10: calling `off` (with or without a handler argument) on an element
and event with no prior registration completes without dereferencing any
absent field — `_getEventHandlers` lazily creates the empty handler array
and installs the single native fan-out listener as a side effect — and the
handler array is left empty. -/
theorem off_without_prior_registration (ev : String) (h : Nat) :
    off_all freshElem ev =
      { eventHandlers := some [(ev, [])], nativeListeners := [ev] } ∧
    off_one freshElem ev h =
      { eventHandlers := some [(ev, [])], nativeListeners := [ev] } ∧
    handlersOf (off_all freshElem ev) ev = [] ∧
    handlersOf (off_one freshElem ev h) ev = [] ∧
    countOcc ev (off_all freshElem ev).nativeListeners = 1 := by
  have hens : ensureHandlers freshElem ev =
      { eventHandlers := some [(ev, [])], nativeListeners := [ev] } := by
    simp [ensureHandlers, freshElem, lookupKey, setKey]
  have h1 : off_all freshElem ev =
      { eventHandlers := some [(ev, [])], nativeListeners := [ev] } := by
    simp [off_all, hens, setKey]
  have h2 : off_one freshElem ev h =
      { eventHandlers := some [(ev, [])], nativeListeners := [ev] } := by
    simp [off_one, hens, setKey, handlersOf, lookupKey, removeAllOcc]
  refine ⟨h1, h2, ?_, ?_, ?_⟩
  · rw [h1]
    simp [handlersOf, lookupKey]
  · rw [h2]
    simp [handlersOf, lookupKey]
  · rw [h1]
    simp [countOcc]

/-- C7: for a string that does not parse as markup (the scratch container
gains no element children) the builder returns, for context `c`, exactly
the concatenation over the context elements, in context order, of the
host's `querySelectorAll` matches for that string (whose per-subtree order
is the selector engine's document order), and registers no ready handler. -/
theorem builder_selector_queries_each_context (h : Host) (s : String) (c : List Nat)
    (hsel : elementChildren (h.parseMarkup s) = []) :
    build h c [JSArg.str s] = ((c.map (fun ctx => h.querySelectorAll ctx s)).flatten, []) := by
  show buildArgList h c [JSArg.str s] = _
  simp [buildArgList, buildArg, hsel]

/-- Witness: on the concrete host, `".btn"` parses to a lone text node, so
the builder queries both context elements and concatenates the matches. -/
theorem builder_selector_queries_each_context_witness :
    build demoHost [1, 2] [JSArg.str ".btn"] = ([10, 11, 12], []) :=
  (builder_selector_queries_each_context demoHost ".btn" [1, 2] (by decide)).trans (by decide)

/-- C9: for a string that does parse as markup (at least one element child
appears in the scratch container), the builder adopts exactly the element
children, discarding any top-level text nodes of the parse. -/
theorem builder_markup_adopts_only_elements (h : Host) (c : List Nat) (s : String)
    (hm : elementChildren (h.parseMarkup s) ≠ []) :
    build h c [JSArg.str s] = (elementChildren (h.parseMarkup s), []) := by
  have hl : 0 < (elementChildren (h.parseMarkup s)).length := List.length_pos.mpr hm
  show buildArgList h c [JSArg.str s] = _
  simp [buildArgList, buildArg, hl]

/-- Witness: on the concrete host, `"hello <b>x</b>"` parses to a text node
followed by element 5; the built collection is exactly `[5]`, the text node
being lost. -/
theorem builder_markup_adopts_only_elements_witness :
    build demoHost [1, 2] [JSArg.str "hello <b>x</b>"] = ([5], []) :=
  (builder_markup_adopts_only_elements demoHost [1, 2] "hello <b>x</b>" (by decide)).trans
    (by decide)

theorem buildArgList_skip (h : Host) (c : List Nat) (a : JSArg)
    (ha : buildArg h c a = ([], [])) :
    ∀ l1 l2, buildArgList h c (l1 ++ a :: l2) = buildArgList h c (l1 ++ l2) := by
  intro l1 l2
  induction l1 with
  | nil => simp [buildArgList, ha]
  | cons x xs ih => simp [buildArgList, ih]

/-- C8: an argument that is none of the accepted shapes — a number, null, a
boolean, or a plain object — matches no branch of the builder's dispatch:
it contributes no element and no ready handler, and removing it from any
argument list leaves the builder's result unchanged. -/
theorem builder_skips_unrecognized (h : Host) (c : List Nat) (l1 l2 : List JSArg) :
    (buildArg h c JSArg.numArg = ([], []) ∧
      buildArg h c JSArg.nullArg = ([], []) ∧
      buildArg h c JSArg.boolArg = ([], []) ∧
      buildArg h c JSArg.objArg = ([], [])) ∧
    (buildArgList h c (l1 ++ JSArg.numArg :: l2) = buildArgList h c (l1 ++ l2) ∧
      buildArgList h c (l1 ++ JSArg.nullArg :: l2) = buildArgList h c (l1 ++ l2) ∧
      buildArgList h c (l1 ++ JSArg.boolArg :: l2) = buildArgList h c (l1 ++ l2) ∧
      buildArgList h c (l1 ++ JSArg.objArg :: l2) = buildArgList h c (l1 ++ l2)) := by
  have hn : buildArg h c JSArg.numArg = ([], []) := by simp [buildArg]
  have hnl : buildArg h c JSArg.nullArg = ([], []) := by simp [buildArg]
  have hb : buildArg h c JSArg.boolArg = ([], []) := by simp [buildArg]
  have ho : buildArg h c JSArg.objArg = ([], []) := by simp [buildArg]
  exact ⟨⟨hn, hnl, hb, ho⟩,
    buildArgList_skip h c _ hn l1 l2, buildArgList_skip h c _ hnl l1 l2,
    buildArgList_skip h c _ hb l1 l2, buildArgList_skip h c _ ho l1 l2⟩
